import Mathlib

/-!
Verification of the wan-prober health-decision engine.

The definitions below are a shallow embedding of the Go program:
the per-target attempt loop and per-cycle target iteration of
`probeInterface` (main.go), the health aggregation at the end of a cycle,
the status-store consumer in `main`, and the DNS resolution / address-cache
logic of `probe.ProbeHTTP` (probe/http.go).  Network I/O is abstracted by
an oracle giving the classified outcome of each probe attempt, and by the
per-resolver results of DNS lookups; everything else follows the source
control flow.
-/

namespace WanProber

/-- Classified outcome of a single probe attempt, as distinguished by the
error checks in `probeInterface` (errors.Is chain): success, probe
timeout, DNS resolution impossible, kernel network-down
(ENETDOWN/ENETUNREACH), DNS NXDOMAIN, or any other error. -/
inductive Outcome where
  | success
  | timeout
  | dnsImpossible
  | netDown
  | nxdomain
  | otherError
deriving DecidableEq, Repr

/-- The per-target counters of the attempt loop in `probeInterface`:
`success`, `attempts`, `timeouts`, `errs`. -/
structure AttemptStats where
  success : Bool
  attempts : Nat
  timeouts : Nat
  errs : Nat
deriving DecidableEq, Repr

/-- One probe target as seen by the attempt loop: whether
`probers[target.Probe]` exists, and the oracle giving the classified
outcome of the n-th attempt (0-based, indexed by the value of `attempts`
before its increment). -/
structure TargetSpec where
  proberExists : Bool
  oracle : Nat → Outcome

/-- The attempt loop of `probeInterface`
(`for !success && attempts < config.ProbeConfiguration.Attempts`).
`fuel` is the remaining attempt budget `Attempts - attempts`.  Each
iteration increments `attempts`; a success outcome ends the loop
(the loop condition fails on re-check); `netDown` and `nxdomain`
break out of the loop after updating `timeouts` resp. `errs`;
`timeout`, `dnsImpossible` and `otherError` update a counter and
continue; when the prober kind is unknown only `attempts` advances. -/
def runAttempts (proberExists : Bool) (oracle : Nat → Outcome) :
    Nat → AttemptStats → AttemptStats
  | 0, s => s
  | fuel + 1, s =>
    if s.success then s
    else
      let a := s.attempts + 1
      if proberExists then
        match oracle s.attempts with
        | Outcome.success => { s with attempts := a, success := true }
        | Outcome.timeout =>
            runAttempts proberExists oracle fuel
              { s with attempts := a, timeouts := s.timeouts + 1 }
        | Outcome.dnsImpossible =>
            runAttempts proberExists oracle fuel
              { s with attempts := a, timeouts := s.timeouts + 1 }
        | Outcome.netDown => { s with attempts := a, timeouts := s.timeouts + 1 }
        | Outcome.nxdomain => { s with attempts := a, errs := s.errs + 1 }
        | Outcome.otherError =>
            runAttempts proberExists oracle fuel
              { s with attempts := a, errs := s.errs + 1 }
      else
        runAttempts proberExists oracle fuel { s with attempts := a }

/-- The full attempt loop for one target, started from zeroed counters,
with attempt budget `budget` (= `config.ProbeConfiguration.Attempts`). -/
def targetAttempts (t : TargetSpec) (budget : Nat) : AttemptStats :=
  runAttempts t.proberExists t.oracle budget ⟨false, 0, 0, 0⟩

/-- Per-target bookkeeping after an unsuccessful attempt loop
(`if errs == attempts \x7b validTargets -= 1 \x7d else if
timeouts == attempts-errs \x7b unreachableTargets += 1 \x7d`).
The pair is `(validTargets, unreachableTargets)`. -/
def bookkeep (s : AttemptStats) (vu : Int × Int) : Int × Int :=
  if s.errs = s.attempts then (vu.1 - 1, vu.2)
  else if s.timeouts = s.attempts - s.errs then (vu.1, vu.2 + 1)
  else vu

/-- The target iteration of one cycle of `probeInterface`: targets are
visited in the given (already permuted) order; a successful target sets
`healthy` and breaks out; otherwise `bookkeep` updates the counters.
The accumulator is `(healthy, validTargets, unreachableTargets)`. -/
def probeCycle (budget : Nat) : List TargetSpec → Bool × Int × Int → Bool × Int × Int
  | [], acc => acc
  | t :: rest, (healthy, v, u) =>
    let s := targetAttempts t budget
    if s.success then (true, v, u)
    else
      let vu := bookkeep s (v, u)
      probeCycle budget rest (healthy, vu.1, vu.2)

/-- The health aggregation at the end of a cycle (`if !healthy ...`):
any success is healthy; otherwise zero valid targets is healthy;
otherwise healthy exactly when `unreachableTargets < validTargets`. -/
def healthVerdict (anySuccess : Bool) (validTargets unreachableTargets : Int) : Bool :=
  if anySuccess then true
  else if validTargets = 0 then true
  else if unreachableTargets < validTargets then true
  else false

/-- The verdict of one full cycle of `probeInterface`: the target loop is
run with `healthy = false`, `validTargets = len(config.Targets)` and
`unreachableTargets = 0`, and the aggregation is applied to the result. -/
def cycleVerdict (budget : Nat) (targets : List TargetSpec) : Bool :=
  let r := probeCycle budget targets (false, (targets.length : Int), 0)
  healthVerdict r.1 r.2.1 r.2.2

/-- C1: the health aggregation decision is a pure function of
`(anySuccess, validTargets, unreachableTargets)`: any probe success gives
healthy; otherwise zero valid targets gives healthy; otherwise the verdict
is healthy iff `unreachableTargets < validTargets`.  The last conjunct ties
the aggregation to the full cycle. -/
theorem healthVerdict_cases :
    (∀ v u : Int, healthVerdict true v u = true) ∧
    (∀ u : Int, healthVerdict false 0 u = true) ∧
    (∀ v u : Int, v ≠ 0 → (healthVerdict false v u = true ↔ u < v)) ∧
    (∀ budget targets, cycleVerdict budget targets =
      healthVerdict (probeCycle budget targets (false, (targets.length : Int), 0)).1
        (probeCycle budget targets (false, (targets.length : Int), 0)).2.1
        (probeCycle budget targets (false, (targets.length : Int), 0)).2.2) := by
  refine ⟨fun v u => rfl, fun u => rfl, fun v u hv => ?_, fun budget targets => rfl⟩
  simp [healthVerdict, hv]

/-- Witness for C1 at the concrete point `(false, 2, 1)`. -/
theorem healthVerdict_cases_witness : healthVerdict false 2 1 = true :=
  (healthVerdict_cases.2.2.1 2 1 (by decide)).mpr (by decide)

/-- A target whose prober exists and whose every attempt times out. -/
def timeoutTarget : TargetSpec := ⟨true, fun _ => Outcome.timeout⟩

/-- A target whose prober exists and whose every attempt returns NXDOMAIN. -/
def nxdomainTarget : TargetSpec := ⟨true, fun _ => Outcome.nxdomain⟩

/-- A target whose prober exists and whose every attempt succeeds. -/
def successTarget : TargetSpec := ⟨true, fun _ => Outcome.success⟩

/-- A target whose first attempt times out and whose second attempt
returns NXDOMAIN. -/
def mixedTarget : TargetSpec :=
  ⟨true, fun n => if n = 0 then Outcome.timeout else Outcome.nxdomain⟩

/-- C2: for a target whose attempt loop ends without a success, if every
attempt was a hard error the valid-target count is decremented and the
unreachable count untouched; otherwise if every non-error attempt timed
out the unreachable count is incremented.  In the concrete 2-target
scenario (one full-timeout target, one NXDOMAIN target, 3 attempts) the
cycle ends with `validTargets = 1`, `unreachableTargets = 1` and the
verdict is unhealthy, in either target order. -/
theorem perTarget_bookkeeping :
    (∀ (s : AttemptStats) (v u : Int), s.success = false →
      (s.errs = s.attempts → bookkeep s (v, u) = (v - 1, u)) ∧
      (s.errs ≠ s.attempts → s.timeouts = s.attempts - s.errs →
        bookkeep s (v, u) = (v, u + 1))) ∧
    probeCycle 3 [timeoutTarget, nxdomainTarget] (false, 2, 0) = (false, 1, 1) ∧
    cycleVerdict 3 [timeoutTarget, nxdomainTarget] = false ∧
    cycleVerdict 3 [nxdomainTarget, timeoutTarget] = false := by
  refine ⟨fun s v u _hs => ⟨fun h => ?_, fun h ht => ?_⟩, by decide, by decide, by decide⟩
  · simp [bookkeep, h]
  · simp [bookkeep, h, ht]

/-- Witness for C2 at the stats of an all-error target. -/
theorem perTarget_bookkeeping_witness :
    bookkeep ⟨false, 1, 0, 1⟩ (2, 0) = (1, 0) :=
  (perTarget_bookkeeping.1 ⟨false, 1, 0, 1⟩ 2 0 rfl).1 rfl

/-- Counterexample for C3: a target that times out on its first attempt
and gets NXDOMAIN on its second.  The NXDOMAIN does end the attempt loop
(2 of 3 attempts made) and does increment the hard-error count, but the
bookkeeping then counts the target as unreachable (`unreachableTargets`
goes from 0 to 1) and not as invalid (`validTargets` stays 1), because
`errs = 1 ≠ 2 = attempts` while `timeouts = 1 = attempts - errs`. -/
theorem nxdomain_target_counted_unreachable_cex :
    (targetAttempts mixedTarget 3).success = false ∧
    (targetAttempts mixedTarget 3).attempts = 2 ∧
    (targetAttempts mixedTarget 3).errs = 1 ∧
    bookkeep (targetAttempts mixedTarget 3) (1, 0) = (1, 1) := by
  decide

/-- Invariant of the attempt loop for a known prober kind: as long as no
attempt has succeeded, every attempt incremented exactly one of the two
counters, so `timeouts + errs = attempts`. -/
theorem runAttempts_counter_invariant (oracle : Nat → Outcome) :
    ∀ (fuel : Nat) (s : AttemptStats), s.timeouts + s.errs = s.attempts →
      (runAttempts true oracle fuel s).success = false →
      (runAttempts true oracle fuel s).timeouts + (runAttempts true oracle fuel s).errs =
        (runAttempts true oracle fuel s).attempts := by
  intro fuel
  induction fuel with
  | zero => intro s hs _; simpa [runAttempts] using hs
  | succ n ih =>
    intro s hs hr
    by_cases hsucc : s.success = true
    · simpa [runAttempts, hsucc] using hs
    · replace hsucc : s.success = false := by simpa using hsucc
      rcases ho : oracle s.attempts with _ | _ | _ | _ | _ | _ <;>
        simp only [runAttempts, hsucc, Bool.false_eq_true, if_false, if_true, ho] at hr ⊢ <;>
        first
          | exact ih _ (by simp; omega) hr
          | omega
          | simp at hr

/-- C3 (amended): an NXDOMAIN outcome increments the hard-error count and
immediately ends the attempt loop; the target is then counted invalid when
every attempt was a hard error, and unreachable otherwise.  A network-down
outcome increments the timeout count and immediately ends the attempt
loop; such a target always has `timeouts + errs = attempts` with
`timeouts ≥ 1`, so it is counted unreachable and never invalid. -/
theorem nxdomain_netdown_break_classification :
    (∀ (oracle : Nat → Outcome) (fuel : Nat) (s : AttemptStats),
      s.success = false → oracle s.attempts = Outcome.nxdomain →
      runAttempts true oracle (fuel + 1) s =
        { s with attempts := s.attempts + 1, errs := s.errs + 1 }) ∧
    (∀ (oracle : Nat → Outcome) (fuel : Nat) (s : AttemptStats),
      s.success = false → oracle s.attempts = Outcome.netDown →
      runAttempts true oracle (fuel + 1) s =
        { s with attempts := s.attempts + 1, timeouts := s.timeouts + 1 }) ∧
    (∀ (s : AttemptStats) (v u : Int), s.timeouts + s.errs = s.attempts →
      1 ≤ s.timeouts → bookkeep s (v, u) = (v, u + 1)) ∧
    (∀ (s : AttemptStats) (v u : Int), s.errs = s.attempts →
      bookkeep s (v, u) = (v - 1, u)) := by
  refine ⟨?_, ?_, ?_, ?_⟩
  · intro oracle fuel s hs ho
    simp [runAttempts, hs, ho]
  · intro oracle fuel s hs ho
    simp [runAttempts, hs, ho]
  · intro s v u hinv ht
    have h1 : s.errs ≠ s.attempts := by omega
    have h2 : s.timeouts = s.attempts - s.errs := by omega
    simp [bookkeep, h1, h2]
  · intro s v u h
    simp [bookkeep, h]

/-- Witness for the amended C3: NXDOMAIN on the first attempt of a fresh
target ends the loop with one attempt and one hard error, and the
bookkeeping counts such a target invalid. -/
theorem nxdomain_netdown_break_classification_witness :
    runAttempts true (fun _ => Outcome.nxdomain) 3 ⟨false, 0, 0, 0⟩ =
      ⟨false, 1, 0, 1⟩ ∧
    bookkeep ⟨false, 1, 0, 1⟩ (1, 0) = (0, 0) :=
  ⟨nxdomain_netdown_break_classification.1 (fun _ => Outcome.nxdomain) 2
      ⟨false, 0, 0, 0⟩ rfl rfl,
    nxdomain_netdown_break_classification.2.2.2 ⟨false, 1, 0, 1⟩ 1 0 rfl⟩

/-- C4: the first successful probe attempt ends the target's attempt loop
at once, ends the iteration over the remaining targets (the result does
not depend on the targets after it), and forces the cycle verdict to
healthy, whatever the other targets' outcomes. -/
theorem first_success_short_circuits :
    (∀ (oracle : Nat → Outcome) (fuel : Nat) (s : AttemptStats),
      s.success = false → oracle s.attempts = Outcome.success →
      runAttempts true oracle (fuel + 1) s =
        { s with attempts := s.attempts + 1, success := true }) ∧
    (∀ (budget : Nat) (l1 : List TargetSpec) (t : TargetSpec) (l2 : List TargetSpec)
      (v u : Int),
      (∀ t' ∈ l1, (targetAttempts t' budget).success = false) →
      (targetAttempts t budget).success = true →
      probeCycle budget (l1 ++ t :: l2) (false, v, u) =
        probeCycle budget (l1 ++ [t]) (false, v, u) ∧
      (probeCycle budget (l1 ++ t :: l2) (false, v, u)).1 = true) ∧
    (∀ (budget : Nat) (l1 : List TargetSpec) (t : TargetSpec) (l2 : List TargetSpec),
      (∀ t' ∈ l1, (targetAttempts t' budget).success = false) →
      (targetAttempts t budget).success = true →
      cycleVerdict budget (l1 ++ t :: l2) = true) := by
  have hstep : ∀ (oracle : Nat → Outcome) (fuel : Nat) (s : AttemptStats),
      s.success = false → oracle s.attempts = Outcome.success →
      runAttempts true oracle (fuel + 1) s =
        { s with attempts := s.attempts + 1, success := true } := by
    intro oracle fuel s hs ho
    simp [runAttempts, hs, ho]
  have hmain : ∀ (budget : Nat) (l1 : List TargetSpec) (t : TargetSpec)
      (l2 : List TargetSpec) (v u : Int),
      (∀ t' ∈ l1, (targetAttempts t' budget).success = false) →
      (targetAttempts t budget).success = true →
      probeCycle budget (l1 ++ t :: l2) (false, v, u) =
        probeCycle budget (l1 ++ [t]) (false, v, u) ∧
      (probeCycle budget (l1 ++ t :: l2) (false, v, u)).1 = true := by
    intro budget l1
    induction l1 with
    | nil =>
      intro t l2 v u _ ht
      simp [probeCycle, ht]
    | cons t' rest ih =>
      intro t l2 v u hl ht
      have h1 : (targetAttempts t' budget).success = false := hl t' (by simp)
      simp only [List.cons_append, probeCycle, h1, Bool.false_eq_true, if_false]
      exact ih t l2 _ _ (fun x hx => hl x (by simp [hx])) ht
  refine ⟨hstep, hmain, ?_⟩
  intro budget l1 t l2 hl ht
  have h := (hmain budget l1 t l2 ((l1 ++ t :: l2).length : Int) 0 hl ht).2
  unfold cycleVerdict
  rcases hr : probeCycle budget (l1 ++ t :: l2)
      (false, ((l1 ++ t :: l2).length : Int), 0) with ⟨h1, v1, u1⟩
  rw [hr] at h
  simp at h
  simp [h, healthVerdict]

/-- Witness for C4: one failing target before the succeeding one and one
target after it; the cycle verdict is healthy. -/
theorem first_success_short_circuits_witness :
    cycleVerdict 1 ([nxdomainTarget] ++ successTarget :: [timeoutTarget]) = true :=
  first_success_short_circuits.2.2 1 [nxdomainTarget] successTarget [timeoutTarget]
    (by decide) (by decide)

/-- A target is counted invalid by the bookkeeping when all its attempts
were hard errors (`errs == attempts`). -/
def countsInvalid (s : AttemptStats) : Bool :=
  s.errs = s.attempts

/-- A target is counted unreachable by the bookkeeping when it is not
invalid and all its non-error attempts timed out. -/
def countsUnreachable (s : AttemptStats) : Bool :=
  !(s.errs = s.attempts : Bool) && (s.timeouts = s.attempts - s.errs : Bool)

/-- The bookkeeping, expressed through the two classification flags. -/
theorem bookkeep_eq_counts (s : AttemptStats) (v u : Int) :
    bookkeep s (v, u) = (if countsInvalid s then v - 1 else v,
      if countsUnreachable s then u + 1 else u) := by
  unfold bookkeep countsInvalid countsUnreachable
  by_cases h1 : s.errs = s.attempts
  · simp [h1]
  · by_cases h2 : s.timeouts = s.attempts - s.errs <;> simp [h1, h2]

/-- When no target succeeds, the cycle ends with `validTargets` lowered by
the number of invalid targets and `unreachableTargets` raised by the
number of unreachable targets. -/
theorem probeCycle_no_success (budget : Nat) :
    ∀ (l : List TargetSpec) (v u : Int),
      (∀ t ∈ l, (targetAttempts t budget).success = false) →
      probeCycle budget l (false, v, u) =
        (false,
          v - (l.countP (fun t => countsInvalid (targetAttempts t budget)) : Int),
          u + (l.countP (fun t => countsUnreachable (targetAttempts t budget)) : Int)) := by
  intro l
  induction l with
  | nil => intro v u _; simp [probeCycle]
  | cons t rest ih =>
    intro v u hl
    have h1 : (targetAttempts t budget).success = false := hl t (by simp)
    have hrest : ∀ t' ∈ rest, (targetAttempts t' budget).success = false :=
      fun x hx => hl x (by simp [hx])
    simp only [probeCycle, h1, Bool.false_eq_true, if_false, bookkeep_eq_counts]
    rw [ih _ _ hrest]
    by_cases hi : countsInvalid (targetAttempts t budget) <;>
      by_cases hu : countsUnreachable (targetAttempts t budget) <;>
      · simp only [hi, hu, if_true, if_false, List.countP_cons]
        refine Prod.ext rfl (Prod.ext ?_ ?_) <;> simp [hi, hu] <;> omega

/-- No target is counted both invalid and unreachable. -/
theorem counts_not_both (s : AttemptStats) :
    ¬(countsInvalid s = true ∧ countsUnreachable s = true) := by
  unfold countsInvalid countsUnreachable
  intro ⟨ha, hb⟩
  simp at ha hb
  exact hb.1 ha

/-- At most one of the two classification flags holds for any target, so
the two counts together never exceed the number of targets. -/
theorem counts_le (budget : Nat) :
    ∀ l : List TargetSpec,
      l.countP (fun t => countsInvalid (targetAttempts t budget)) +
        l.countP (fun t => countsUnreachable (targetAttempts t budget)) ≤ l.length := by
  intro l
  induction l with
  | nil => simp
  | cons t rest ih =>
    simp only [List.countP_cons, List.length_cons]
    by_cases hi : countsInvalid (targetAttempts t budget) = true
    · have hu : ¬countsUnreachable (targetAttempts t budget) = true :=
        fun hu => counts_not_both _ ⟨hi, hu⟩
      simp [hi, hu]
      omega
    · by_cases hu : countsUnreachable (targetAttempts t budget) = true <;>
        simp [hi, hu] <;> omega

/-- If some target in the list is counted neither invalid nor
unreachable, the two counts together stay strictly below the number of
targets. -/
theorem counts_lt (budget : Nat) :
    ∀ (l : List TargetSpec) (t : TargetSpec), t ∈ l →
      countsInvalid (targetAttempts t budget) = false →
      countsUnreachable (targetAttempts t budget) = false →
      l.countP (fun t' => countsInvalid (targetAttempts t' budget)) +
        l.countP (fun t' => countsUnreachable (targetAttempts t' budget)) + 1 ≤ l.length := by
  intro l
  induction l with
  | nil => intro t ht; simp at ht
  | cons hd rest ih =>
    intro t ht hinv hunr
    rcases List.mem_cons.mp ht with he | hm
    · subst he
      simp only [List.countP_cons, hinv, hunr, List.length_cons]
      simp only [Bool.false_eq_true, if_false]
      have := counts_le budget rest
      omega
    · have := ih t hm hinv hunr
      simp only [List.countP_cons, List.length_cons]
      by_cases hi : countsInvalid (targetAttempts hd budget) = true
      · have hu : ¬countsUnreachable (targetAttempts hd budget) = true :=
          fun hu => counts_not_both _ ⟨hi, hu⟩
        simp [hi, hu]
        omega
      · by_cases hu : countsUnreachable (targetAttempts hd budget) = true <;>
          simp [hi, hu] <;> omega

/-- The attempt loop for a target whose probe kind matches no registered
prober only advances the attempt counter: no probe is run, so no counter
and no success flag changes. -/
theorem runAttempts_unknown (oracle : Nat → Outcome) :
    ∀ (fuel : Nat) (s : AttemptStats), s.success = false →
      runAttempts false oracle fuel s = { s with attempts := s.attempts + fuel } := by
  intro fuel
  induction fuel with
  | zero => intro s _; simp [runAttempts]
  | succ n ih =>
    intro s hs
    obtain ⟨su, a, ti, er⟩ := s
    simp only at hs
    subst hs
    have step : runAttempts false oracle (n + 1) ⟨false, a, ti, er⟩ =
        runAttempts false oracle n ⟨false, a + 1, ti, er⟩ := by
      simp [runAttempts]
    rw [step, ih ⟨false, a + 1, ti, er⟩ rfl]
    have h : a + 1 + n = a + (n + 1) := by omega
    simp [h]

/-- C9: in a cycle where no probe succeeds, a target whose probe kind
matches no registered prober consumes the full attempt budget with zero
timeouts and zero errors, is neither removed from `validTargets` nor
counted unreachable, and its presence forces
`unreachableTargets < validTargets`, hence a healthy verdict. -/
theorem unknown_prober_forces_healthy
    (budget : Nat) (targets : List TargetSpec)
    (hb : 1 ≤ budget)
    (hns : ∀ t ∈ targets, (targetAttempts t budget).success = false)
    (hu : ∃ t ∈ targets, t.proberExists = false) :
    (∀ t ∈ targets, t.proberExists = false →
      targetAttempts t budget = ⟨false, budget, 0, 0⟩) ∧
    (probeCycle budget targets (false, (targets.length : Int), 0)).2.2 <
      (probeCycle budget targets (false, (targets.length : Int), 0)).2.1 ∧
    cycleVerdict budget targets = true := by
  have hstats : ∀ t : TargetSpec, t.proberExists = false →
      targetAttempts t budget = ⟨false, budget, 0, 0⟩ := by
    intro t hpe
    unfold targetAttempts
    rw [hpe, runAttempts_unknown t.oracle budget ⟨false, 0, 0, 0⟩ rfl]
    simp
  obtain ⟨t0, ht0mem, ht0pe⟩ := hu
  have hinv : countsInvalid (targetAttempts t0 budget) = false := by
    rw [hstats t0 ht0pe]
    unfold countsInvalid
    simp
    omega
  have hunr : countsUnreachable (targetAttempts t0 budget) = false := by
    rw [hstats t0 ht0pe]
    unfold countsUnreachable
    simp
  have hlt := counts_lt budget targets t0 ht0mem hinv hunr
  have hcycle := probeCycle_no_success budget targets ((targets.length : Int)) 0 hns
  refine ⟨fun t _ hpe => hstats t hpe, ?_, ?_⟩
  · rw [hcycle]
    simp only []
    omega
  · unfold cycleVerdict
    rw [hcycle]
    unfold healthVerdict
    simp only []
    have : (0 : Int) +
        (targets.countP (fun t => countsUnreachable (targetAttempts t budget)) : Int) <
        (targets.length : Int) -
        (targets.countP (fun t => countsInvalid (targetAttempts t budget)) : Int) := by
      omega
    split_ifs with h1 h2 <;> simp_all

/-- Witness for C9: one target with an unknown probe kind, budget 3. -/
theorem unknown_prober_forces_healthy_witness :
    cycleVerdict 3 [TargetSpec.mk false (fun _ => Outcome.timeout)] = true :=
  (unknown_prober_forces_healthy 3 [TargetSpec.mk false (fun _ => Outcome.timeout)]
    (by decide) (by decide)
    ⟨TargetSpec.mk false (fun _ => Outcome.timeout), by simp, rfl⟩).2.2

/-- Control transfer at the end of a blocking wait in `probeInterface`. -/
inductive LoopControl where
  | continueLoop
  | exitLoop
deriving DecidableEq, Repr

/-- The inter-cycle sleep of `probeInterface`: after sending the cycle's
status, a `select` races the cancellation signal against the jittered
timer.  The cancelled branch merely stops the timer and the timer branch
merely returns; both branches fall through to the top of the infinite
`for` loop, so the next cycle (and its channel send) begins either way. -/
def interCycleWait (cancelled : Bool) : LoopControl :=
  match cancelled with
  | true => LoopControl.continueLoop
  | false => LoopControl.continueLoop

/-- The cooldown wait after a generic probe error: a `select` races the
cancellation signal against a timer of one timeout duration; both branches
fall through and the attempt loop continues. -/
def cooldownWait (cancelled : Bool) : LoopControl :=
  match cancelled with
  | true => LoopControl.continueLoop
  | false => LoopControl.continueLoop

/-- Counterexample for C5: when the cancellation signal has fired, the
inter-cycle wait does not exit the probing loop — it falls through to the
next cycle, which emits another status event; the cooldown wait likewise
continues the attempt loop. -/
theorem cancellation_does_not_exit_loop_cex :
    interCycleWait true = LoopControl.continueLoop ∧
    interCycleWait true ≠ LoopControl.exitLoop ∧
    cooldownWait true ≠ LoopControl.exitLoop := by
  decide

/-- C5 (amended): cancellation cuts the waits short but never makes the
probing loop exit: every branch of both `select` statements falls through
and the loop continues. -/
theorem cancellation_waits_fall_through :
    (∀ c, interCycleWait c = LoopControl.continueLoop) ∧
    (∀ c, cooldownWait c = LoopControl.continueLoop) := by
  decide

/-- The process-wide DNS address cache (the `dnsCache` map): target
string to last successfully resolved address set.  Addresses are
modelled by their string representations. -/
abbrev Cache := String → Option (List String)

/-- `dnsCache.Store(target, addrs)`: whole-entry overwrite of one key. -/
def storeCache (c : Cache) (key : String) (addrs : List String) : Cache :=
  fun k => if k = key then some addrs else c k

/-- Result of one resolver lookup (`LookupIPAddr`) as classified by
`ProbeHTTP`: a successful address list; an NXDOMAIN-class error
(not a timeout and `IsNotFound`); a SERVFAIL-class error (not a timeout,
temporary, "server misbehaving"); or any other failure. -/
inductive ResolverResult where
  | ok (addrs : List String)
  | nxdomain
  | servfail
  | otherFail
deriving DecidableEq, Repr

/-- Outcome of the DNS-resolution part of `ProbeHTTP` (everything before
the HTTP dial): a usable address list with the `workingHostResolver`
flag, one of the classified DNS errors, or the "No addresses found for
hostname" error. -/
inductive ResolveOutcome where
  | resolved (addrs : List String) (workingHostResolver : Bool)
  | errNXDomain
  | errFallbackServFail
  | errResolutionImpossible
  | errNoAddresses
deriving DecidableEq, Repr

/-- Result of the fallback-resolver loop of `ProbeHTTP`: an address list
from the cache or from a fallback resolver (with the SERVFAIL count so
far), a fatal NXDOMAIN return, or exhaustion with the SERVFAIL count. -/
inductive FallbackResult where
  | gotAddrs (addrs : List String) (servFails : Nat)
  | nxdomain
  | exhausted (servFails : Nat)
deriving DecidableEq, Repr

/-- The fallback loop of `ProbeHTTP`, over the already-permuted list of
per-resolver results: each iteration first consults the cache for the
target and breaks on a hit; on a miss it queries the next fallback
resolver — NXDOMAIN returns fatally, a SERVFAIL is counted and the loop
continues, any other failure continues, and a success breaks. -/
def fallbackLoop (cache : Cache) (target : String) :
    List ResolverResult → Nat → FallbackResult
  | [], servFails => FallbackResult.exhausted servFails
  | r :: rest, servFails =>
    match cache target with
    | some addrs => FallbackResult.gotAddrs addrs servFails
    | none =>
      match r with
      | ResolverResult.ok addrs => FallbackResult.gotAddrs addrs servFails
      | ResolverResult.nxdomain => FallbackResult.nxdomain
      | ResolverResult.servfail => fallbackLoop cache target rest (servFails + 1)
      | ResolverResult.otherFail => fallbackLoop cache target rest servFails

/-- The DNS resolution of `ProbeHTTP`: the host resolver is tried first —
NXDOMAIN is fatal, success sets `workingHostResolver`; on any other
failure the fallback loop runs with a zero SERVFAIL count; on exhaustion
at least one SERVFAIL yields the fallback-SERVFAIL error and otherwise
resolution is impossible; an empty address list is the "No addresses
found" error; otherwise the addresses are stored in the cache and
returned together with the new cache. -/
def resolveTarget (cache : Cache) (target : String)
    (hostResult : ResolverResult) (fallbackResults : List ResolverResult) :
    ResolveOutcome × Cache :=
  match hostResult with
  | ResolverResult.nxdomain => (ResolveOutcome.errNXDomain, cache)
  | ResolverResult.ok addrs =>
    if addrs.length = 0 then (ResolveOutcome.errNoAddresses, cache)
    else (ResolveOutcome.resolved addrs true, storeCache cache target addrs)
  | _ =>
    match fallbackLoop cache target fallbackResults 0 with
    | FallbackResult.nxdomain => (ResolveOutcome.errNXDomain, cache)
    | FallbackResult.exhausted servFails =>
      if 1 ≤ servFails then (ResolveOutcome.errFallbackServFail, cache)
      else (ResolveOutcome.errResolutionImpossible, cache)
    | FallbackResult.gotAddrs addrs _ =>
      if addrs.length = 0 then (ResolveOutcome.errNoAddresses, cache)
      else (ResolveOutcome.resolved addrs false, storeCache cache target addrs)

/-- A resolution call either leaves the cache unchanged or overwrites the
target's entry with the successfully resolved address list. -/
theorem resolveTarget_cache_change (cache : Cache) (target : String)
    (host : ResolverResult) (fb : List ResolverResult) :
    (resolveTarget cache target host fb).2 = cache ∨
    ∃ addrs b, (resolveTarget cache target host fb).1 =
        ResolveOutcome.resolved addrs b ∧
      (resolveTarget cache target host fb).2 = storeCache cache target addrs := by
  rcases host with addrs | _ | _ | _
  · by_cases h : addrs = []
    · left; simp [resolveTarget, h]
    · right; exact ⟨addrs, true, by simp [resolveTarget, h], by simp [resolveTarget, h]⟩
  · left; rfl
  all_goals rcases hfb : fallbackLoop cache target fb 0 with ⟨addrs, sf⟩ | _ | sf
  case servfail.nxdomain => left; simp [resolveTarget, hfb]
  case otherFail.nxdomain => left; simp [resolveTarget, hfb]
  case servfail.exhausted | otherFail.exhausted =>
    by_cases hsf : 1 ≤ sf
    · left; simp [resolveTarget, hfb, hsf]
    · left; simp [resolveTarget, hfb, hsf]
  all_goals by_cases h : addrs = []
  all_goals try (left; simp [resolveTarget, hfb, h]; done)
  all_goals
    right; exact ⟨addrs, false, by simp [resolveTarget, hfb, h],
      by simp [resolveTarget, hfb, h]⟩

/-- C6: entries of the address cache are never deleted or expired — any
stored entry survives every resolution call, the only mutation is a
whole-entry overwrite on a successful resolution, and when the host
resolver fails (other than NXDOMAIN) a cached entry satisfies the
fallback path immediately, however the fallback resolvers behave. -/
theorem dnsCache_no_eviction :
    (∀ (cache : Cache) (target : String) (host : ResolverResult)
      (fb : List ResolverResult) (k : String) (v : List String),
      cache k = some v →
      (resolveTarget cache target host fb).2 k = some v ∨
      (k = target ∧ ∃ addrs b,
        (resolveTarget cache target host fb).1 = ResolveOutcome.resolved addrs b ∧
        (resolveTarget cache target host fb).2 k = some addrs)) ∧
    (∀ (cache : Cache) (target : String) (host : ResolverResult)
      (fb : List ResolverResult),
      (resolveTarget cache target host fb).2 = cache ∨
      ∃ addrs b, (resolveTarget cache target host fb).1 =
          ResolveOutcome.resolved addrs b ∧
        (resolveTarget cache target host fb).2 = storeCache cache target addrs) ∧
    (∀ (cache : Cache) (target : String) (host : ResolverResult)
      (addrs : List String) (fb : List ResolverResult),
      cache target = some addrs → addrs ≠ [] →
      (host = ResolverResult.servfail ∨ host = ResolverResult.otherFail) →
      fb ≠ [] →
      (resolveTarget cache target host fb).1 =
        ResolveOutcome.resolved addrs false) := by
  refine ⟨?_, resolveTarget_cache_change, ?_⟩
  · intro cache target host fb k v hk
    rcases resolveTarget_cache_change cache target host fb with heq | ⟨addrs, b, h1, h2⟩
    · left; rw [heq]; exact hk
    · by_cases hkt : k = target
      · right
        exact ⟨hkt, addrs, b, h1, by rw [h2]; simp [storeCache, hkt]⟩
      · left
        rw [h2]
        simp [storeCache, hkt]
        exact hk
  · intro cache target host addrs fb hhit hne hhost hfb
    rcases fb with _ | ⟨r, rest⟩
    · exact absurd rfl hfb
    · have hloop : fallbackLoop cache target (r :: rest) 0 =
          FallbackResult.gotAddrs addrs 0 := by
        simp [fallbackLoop, hhit]
      have hlen : ¬addrs.length = 0 := by
        simpa [List.length_eq_zero] using hne
      rcases hhost with h | h <;> subst h <;> simp [resolveTarget, hloop, hlen]

/-- Witness for C6: a one-entry cache, a failing host resolver and a
failing fallback resolver; the cached address list is returned. -/
theorem dnsCache_no_eviction_witness :
    (resolveTarget
      (storeCache (fun _ => none) ("example.com.") [("192.0.2.1")])
      ("example.com.") ResolverResult.otherFail [ResolverResult.otherFail]).1 =
      ResolveOutcome.resolved [("192.0.2.1")] false :=
  dnsCache_no_eviction.2.2
    (storeCache (fun _ => none) ("example.com.") [("192.0.2.1")])
    ("example.com.") ResolverResult.otherFail [("192.0.2.1")]
    [ResolverResult.otherFail] (by simp [storeCache]) (by simp)
    (Or.inr rfl) (by simp)

/-- Whether a fallback lookup result is a SERVFAIL-class failure. -/
def isServFail : ResolverResult → Bool
  | ResolverResult.servfail => true
  | _ => false

/-- When the cache has no entry for the target and every fallback lookup
fails with SERVFAIL or another non-fatal error, the fallback loop
exhausts and its final count is the starting count plus the number of
SERVFAILs in the list. -/
theorem fallbackLoop_all_fail (cache : Cache) (target : String)
    (hmiss : cache target = none) :
    ∀ (l : List ResolverResult) (sf : Nat),
      (∀ r ∈ l, r = ResolverResult.servfail ∨ r = ResolverResult.otherFail) →
      fallbackLoop cache target l sf =
        FallbackResult.exhausted (sf + l.countP (fun r => isServFail r)) := by
  intro l
  induction l with
  | nil => intro sf _; simp [fallbackLoop]
  | cons r rest ih =>
    intro sf hl
    have hrest : ∀ x ∈ rest, x = ResolverResult.servfail ∨ x = ResolverResult.otherFail :=
      fun x hx => hl x (by simp [hx])
    rcases hl r (by simp) with h | h <;>
      (subst h;
        simp [fallbackLoop, hmiss, ih _ hrest, isServFail, List.countP_cons];
        try omega)

/-- C7: when the fallback loop completes without a success or a cache
hit, the resolution outcome is the fallback-SERVFAIL error if at least
one SERVFAIL-class failure was observed and the resolution-impossible
error otherwise; no other outcome arises on fallback exhaustion. -/
theorem fallback_exhaustion_outcome
    (cache : Cache) (target : String) (host : ResolverResult)
    (fb : List ResolverResult)
    (hhost : host = ResolverResult.servfail ∨ host = ResolverResult.otherFail)
    (hmiss : cache target = none)
    (hfail : ∀ r ∈ fb, r = ResolverResult.servfail ∨ r = ResolverResult.otherFail) :
    (resolveTarget cache target host fb).1 =
      if 1 ≤ fb.countP (fun r => isServFail r) then ResolveOutcome.errFallbackServFail
      else ResolveOutcome.errResolutionImpossible := by
  have hloop := fallbackLoop_all_fail cache target hmiss fb 0 hfail
  rcases hhost with h | h <;> subst h <;>
    · simp only [resolveTarget, hloop, Nat.zero_add]
      by_cases hsf : 1 ≤ fb.countP (fun r => isServFail r) <;> simp [hsf]

/-- Witness for C7: an empty cache and one SERVFAIL fallback resolver
give the fallback-SERVFAIL outcome. -/
theorem fallback_exhaustion_outcome_witness :
    (resolveTarget (fun _ => none) ("example.com.") ResolverResult.otherFail
      [ResolverResult.servfail]).1 = ResolveOutcome.errFallbackServFail := by
  have h := fallback_exhaustion_outcome (fun _ => none) ("example.com.")
    ResolverResult.otherFail [ResolverResult.servfail] (Or.inr rfl) rfl
    (by decide)
  simpa using h

/-- A status event produced once per cycle per interface. -/
structure InterfaceStatus where
  name : String
  healthy : Bool
deriving DecidableEq, Repr

/-- The published per-interface record of the status store. -/
structure InterfaceStatusResponse where
  name : String
  healthy : Bool
  lastProbe : Int
  lastChange : Int
deriving DecidableEq, Repr

/-- The status store (`interfaceStatusMap`), keyed by interface name. -/
abbrev StatusStore := String → Option InterfaceStatusResponse

/-- The channel-consumer body of `main` for one status event at time
`now`: a missing record is created with both timestamps set to `now`;
otherwise `LastProbe` is set to `now` and, only when the stored `Healthy`
differs from the event's, `Healthy` is replaced and `LastChange` set to
`now`; the record is stored back under the interface name. -/
def consumeStatus (store : StatusStore) (status : InterfaceStatus) (now : Int) :
    StatusStore :=
  match store status.name with
  | none =>
    fun k => if k = status.name then
      some ⟨status.name, status.healthy, now, now⟩ else store k
  | some v =>
    let v1 := { v with lastProbe := now }
    let v2 := if v1.healthy != status.healthy
      then { v1 with healthy := status.healthy, lastChange := now } else v1
    fun k => if k = status.name then some v2 else store k

/-- The consumer loop of `main`, folding `consumeStatus` over the
sequence of events (paired with their arrival times) read from the
channel. -/
def consumeAll (store : StatusStore) : List (InterfaceStatus × Int) → StatusStore
  | [] => store
  | (ev, now) :: rest => consumeAll (consumeStatus store ev now) rest

/-- C8: the first event for a name creates a record with both timestamps
set to the current time; a later event sets `lastProbe`, replaces
`healthy`, and sets `lastChange` exactly when the stored `healthy`
differs from the event's; other names are untouched; and the consumer
loop is the fold of this one-event step. -/
theorem status_store_update :
    (∀ (store : StatusStore) (ev : InterfaceStatus) (now : Int),
      store ev.name = none →
      consumeStatus store ev now ev.name =
        some ⟨ev.name, ev.healthy, now, now⟩) ∧
    (∀ (store : StatusStore) (ev : InterfaceStatus) (now : Int)
      (v : InterfaceStatusResponse),
      store ev.name = some v →
      consumeStatus store ev now ev.name =
        some ⟨v.name, ev.healthy, now,
          if v.healthy = ev.healthy then v.lastChange else now⟩) ∧
    (∀ (store : StatusStore) (ev : InterfaceStatus) (now : Int) (k : String),
      k ≠ ev.name → consumeStatus store ev now k = store k) ∧
    (∀ (store : StatusStore) (ev : InterfaceStatus) (now : Int)
      (rest : List (InterfaceStatus × Int)),
      consumeAll store ((ev, now) :: rest) =
        consumeAll (consumeStatus store ev now) rest) := by
  refine ⟨?_, ?_, ?_, fun _ _ _ _ => rfl⟩
  · intro store ev now hnone
    simp [consumeStatus, hnone]
  · intro store ev now v hsome
    by_cases hflip : v.healthy = ev.healthy <;>
      simp [consumeStatus, hsome, hflip]
  · intro store ev now k hk
    rcases hm : store ev.name with _ | v <;> simp [consumeStatus, hm, hk]

/-- Witness for C8: the first event for interface "wan0" at time 100
creates its record with both timestamps 100. -/
theorem status_store_update_witness :
    consumeStatus (fun _ => none) (InterfaceStatus.mk ("wan0") true) 100 ("wan0") =
      some ⟨("wan0"), true, 100, 100⟩ :=
  status_store_update.1 (fun _ => none) (InterfaceStatus.mk ("wan0") true) 100 rfl

/-- Go `strings.HasPrefix`, on the character lists of the strings. -/
def hasPrefixGo (s pre : String) : Bool :=
  List.isPrefixOf pre.toList s.toList

/-- The target normalization of `ProbeHTTP`: prepend the default scheme
when the target has neither the plain nor the TLS scheme. -/
def normalizeTarget (t : String) : String :=
  if hasPrefixGo t ("http://") || hasPrefixGo t ("https://") then t
  else ("http://") ++ t

/-- Modelled from the Go standard library (net/url, not part of this
repository): for an http(s) URL the authority is the text between the
scheme separator and the first '/', and `URL.Hostname()` strips a
trailing ":port".  For the literal target "http://" the authority, and
hence the hostname, is the empty string.  Userinfo and bracketed IPv6
hosts are not modelled; no claim depends on them. -/
def urlHostname (u : String) : String :=
  let afterScheme :=
    if hasPrefixGo u ("http://") then String.mk (u.toList.drop 7)
    else if hasPrefixGo u ("https://") then String.mk (u.toList.drop 8)
    else u
  let authority := String.mk (afterScheme.toList.takeWhile (fun c => c != '/'))
  if authority.toList.contains ':' then
    String.mk (authority.toList.takeWhile (fun c => c != ':'))
  else authority

/-- Go string indexing `s[i]`: the byte at `i`, defined only when
`0 ≤ i < len(s)`; `none` models the runtime bounds-check failure
(an index-out-of-range run-time error).  Targets here are ASCII, so
byte indexing coincides with character indexing. -/
def goStringIndex (s : String) (i : Int) : Option Char :=
  if 0 ≤ i then s.toList.get? i.toNat else none

/-- The fully-qualify step of `ProbeHTTP` (make the hostname end in a
root label before any DNS lookup): it reads the last byte of the
hostname, so on an empty hostname the access is out of bounds and the
result is `none`; otherwise a missing trailing dot is appended, keeping
any port. -/
def fullyQualify (hostname port : String) : Option String :=
  match goStringIndex hostname ((hostname.length : Int) - 1) with
  | none => none
  | some c =>
    if c != '.' then
      if port != ("") then some (hostname ++ (".:") ++ port)
      else some (hostname ++ ("."))
    else some hostname

/-- C10: the HTTP prober is not total.  The literal target "http://"
already carries the scheme so nothing is prepended, it parses to a URL
whose hostname is empty, and the fully-qualify step then indexes the
last byte of the empty hostname — an out-of-bounds access (the `none`
models the Go run-time panic), before any probe attempt is made. -/
theorem empty_hostname_index_out_of_bounds :
    normalizeTarget ("http://") = ("http://") ∧
    urlHostname ("http://") = ("") ∧
    goStringIndex ("") (-1) = none ∧
    fullyQualify (urlHostname ("http://")) ("") = none := by
  refine ⟨?_, ?_, rfl, ?_⟩ <;> decide

end WanProber
